import Mathlib

/-!
Verification of the non-player decision engine of the Microcosm turn-based
strategy game: blessing selection, construction planning (human-assist and
unsupervised variants), settler policy, and relic search / movement fallback.

The repository ships the test suite for this engine
(`source/tests/test_movemaker.py`) but not the engine module itself, so the
engine is modelled from the specification (spec.md sections 3 to 4.5), with
the numeric constants the specification leaves open pinned by the scenarios
of the repository's tests.  Each definition carries a comment naming the part
of the specification it models.
-/

namespace Microcosm

/-- Modelled from the spec: the four resource categories of section 3
(wealth, harvest, zeal, fortune). -/
inductive Resource
  | wealth
  | harvest
  | zeal
  | fortune
deriving DecidableEq, Repr

/-- Fixed order of the resource categories used by every tie-break rule:
wealth first, then harvest, then zeal, then fortune. -/
def resIdx : Resource → Nat
  | .wealth => 0
  | .harvest => 1
  | .zeal => 2
  | .fortune => 3

/-- Modelled from the spec: the effect vector of an Improvement, section 3:
each component may be zero, positive, or negative. -/
structure Effect where
  wealth : Int
  harvest : Int
  zeal : Int
  fortune : Int
  satisfaction : Int
  strength : Int
deriving DecidableEq, Repr

/-- Modelled from the spec: Improvement, section 3 - category is omitted
(never consulted by the engine), cost is the turns-equivalent build cost, and
the unlock relation is carried as the optional prerequisite blessing name. -/
structure Improvement where
  name : String
  cost : Int
  effect : Effect
  prereq : Option String
deriving DecidableEq, Repr

/-- Modelled from the spec: Project, section 3 - a constructible target with
no resource-effect vector. -/
structure Project where
  name : String
deriving DecidableEq, Repr

/-- Modelled from the spec: UnitBlueprint, section 3 (cost, power, health,
total stamina, heals flag, optional prerequisite blessing).  The settler
policy of section 4.3 needs a settler-type marker, carried as can_settle. -/
structure UnitPlan where
  name : String
  cost : Int
  power : Int
  health : Int
  total_stamina : Nat
  heals : Bool
  can_settle : Bool
  prereq : Option String
deriving DecidableEq, Repr

/-- Modelled from the spec: Blessing, section 3 (name and turns-equivalent
research cost; the category label is omitted, never consulted). -/
structure Blessing where
  name : String
  cost : Int
deriving DecidableEq, Repr

/-- Modelled from the spec: the tagged construction target of section 9
(design note): Improvement, Project or UnitBlueprint. -/
inductive Construction
  | improvement (i : Improvement)
  | project (p : Project)
  | unitPlan (u : UnitPlan)
deriving DecidableEq, Repr

/-- Modelled from the spec: the settlement's current construction target with
accumulated progress (assigned with zero progress on selection). -/
structure Work where
  construction : Construction
  progress : Int
deriving DecidableEq, Repr

/-- Modelled from the spec: the in-progress blessing of a player with
accumulated progress (assigned with zero progress on selection). -/
structure OngoingBlessing where
  blessing : Blessing
  progress : Int
deriving DecidableEq, Repr

/-- Modelled from the spec: biome of a tile, section 3 (never consulted by
the engine). -/
inductive Biome
  | SEA
  | DESERT
  | FOREST
  | MOUNTAIN
deriving DecidableEq, Repr

/-- Modelled from the spec: Tile (Quad), section 3: biome, per-resource
yield, and the point-of-interest (relic) flag. -/
structure Quad where
  biome : Biome
  wealth : Int
  harvest : Int
  zeal : Int
  fortune : Int
  is_relic : Bool
deriving DecidableEq, Repr

/-- Modelled from the spec: Unit, section 3: position, remaining movement
budget, garrisoned flag, blueprint reference.  Health is carried as in the
test suite's constructor. -/
structure GameUnit where
  health : Int
  remaining_stamina : Nat
  location : Nat × Nat
  garrisoned : Bool
  plan : UnitPlan
deriving DecidableEq, Repr

/-- Modelled from the spec: Settlement, section 3: location, owned tiles,
built improvements (insertion order), current construction target,
satisfaction (clamped 0-100), level (1-10), garrisoned units, and the
one-settler-per-settlement flag. -/
structure Settlement where
  name : String
  location : Nat × Nat
  quads : List Quad
  improvements : List Improvement
  satisfaction : Int
  level : Nat
  garrison : List GameUnit
  produced_settler : Bool
  current_work : Option Work
deriving DecidableEq, Repr

/-- Modelled from the spec: faction enum, section 3 - one variant
(Concentrated) disables settler production entirely; the other variants are
interchangeable for the engine. -/
inductive Faction
  | Concentrated
  | Nocturne
  | Agriculturists
deriving DecidableEq, Repr

/-- Modelled from the spec: the attacking axis of the two-axis playstyle. -/
inductive AttackPlaystyle
  | AGGRESSIVE
  | DEFENSIVE
  | NEUTRAL
deriving DecidableEq, Repr

/-- Modelled from the spec: the expansion axis of the two-axis playstyle. -/
inductive ExpansionPlaystyle
  | EXPANSIONIST
  | NEUTRAL
  | HERMIT
deriving DecidableEq, Repr

/-- Modelled from the spec: the two independent playstyle axes of an
unsupervised player. -/
structure AIPlaystyle where
  attacking : AttackPlaystyle
  expansion : ExpansionPlaystyle
deriving DecidableEq, Repr

/-- Modelled from the spec: Player, section 3: faction, deployed units,
researched blessings, in-progress blessing, playstyle.  The playstyle is
modelled as always present; the human-assist entry points never consult
it. -/
structure Player where
  name : String
  faction : Faction
  units : List GameUnit
  blessings : List Blessing
  ongoing_blessing : Option OngoingBlessing
  ai_playstyle : AIPlaystyle
deriving DecidableEq, Repr

/-! ## Reference catalogue

Modelled from the spec: the catalogue is a stable-ordered, load-once registry
(section 6, section 9) whose order is load-bearing for every tie-break rule.
The entries below form the reference catalogue used by the concrete scenarios
of the claims; the names and the numeric facts stated by the repository's
tests (Planned Economy grants 20 wealth and -2 satisfaction, Aqueduct grants
2 harvest and 5 satisfaction, the settler is the fourth unit plan, and so on)
are kept; numbers the tests leave open are chosen consistently with them. -/

def beg_spl : Blessing := ⟨"Beginner Spells", 100⟩
def rud_exp : Blessing := ⟨"Rudimentary Explosives", 100⟩
def eco_mov : Blessing := ⟨"Economic Movements", 150⟩
def sl_vau : Blessing := ⟨"Self-Locking Vaults", 200⟩
def met_alt : Blessing := ⟨"Metabolic Alterations", 200⟩
def rob_exp : Blessing := ⟨"Robotic Experiments", 250⟩
def div_arc : Blessing := ⟨"Divine Architecture", 300⟩
def art_pht : Blessing := ⟨"Artificial Photosynthesis", 300⟩

/-- Modelled from the spec: the ordered blessing catalogue. -/
def BLESSINGS : List Blessing :=
  [beg_spl, rud_exp, eco_mov, sl_vau, met_alt, rob_exp, div_arc, art_pht]

def aqueduct : Improvement :=
  ⟨"Aqueduct", 12, ⟨0, 2, 0, 0, 5, 0⟩, none⟩
def collectivised_farms : Improvement :=
  ⟨"Collectivised Farms", 15, ⟨0, 4, 0, 0, 2, 0⟩, none⟩
def city_market : Improvement :=
  ⟨"City Market", 20, ⟨5, 0, 0, 0, 2, 0⟩, none⟩
def melting_pot : Improvement :=
  ⟨"Melting Pot", 18, ⟨0, 0, 0, 2, 3, 0⟩, none⟩
def insurmountable_walls : Improvement :=
  ⟨"Insurmountable Walls", 25, ⟨0, 0, 0, 0, 2, 5⟩, some "Rudimentary Explosives"⟩
def local_forge : Improvement :=
  ⟨"Local Forge", 18, ⟨0, 0, 5, 0, 0, 0⟩, none⟩
def planned_economy : Improvement :=
  ⟨"Planned Economy", 30, ⟨20, 0, 0, 0, -2, 0⟩, some "Economic Movements"⟩
def federal_museum : Improvement :=
  ⟨"Federal Museum", 28, ⟨15, 0, 0, 0, 0, 0⟩, some "Divine Architecture"⟩
def endless_mine : Improvement :=
  ⟨"Endless Mine", 25, ⟨0, 0, 20, 0, 0, 0⟩, some "Robotic Experiments"⟩
def automated_production : Improvement :=
  ⟨"Automated Production", 40, ⟨0, 0, 30, 0, -10, 0⟩, some "Robotic Experiments"⟩
def treasure_vaults : Improvement :=
  ⟨"Treasure Vaults", 50, ⟨30, 0, 0, 0, 0, 0⟩, some "Self-Locking Vaults"⟩
def impenetrable_stores : Improvement :=
  ⟨"Impenetrable Stores", 45, ⟨0, 25, 0, 0, -5, 0⟩, some "Artificial Photosynthesis"⟩
def genetic_clinics : Improvement :=
  ⟨"Genetic Clinics", 40, ⟨0, 15, 0, 0, 0, 0⟩, some "Metabolic Alterations"⟩
def amphitheatre : Improvement :=
  ⟨"Amphitheatre", 60, ⟨0, 0, 0, 3, 7, 0⟩, none⟩
def haunted_forest : Improvement :=
  ⟨"Haunted Forest", 35, ⟨0, 0, 0, 8, -5, 0⟩, some "Beginner Spells"⟩

/-- Modelled from the spec: the ordered improvement catalogue. -/
def IMPROVEMENTS : List Improvement :=
  [aqueduct, collectivised_farms, city_market, melting_pot,
   insurmountable_walls, local_forge, planned_economy, federal_museum,
   endless_mine, automated_production, treasure_vaults, impenetrable_stores,
   genetic_clinics, amphitheatre, haunted_forest]

def warrior : UnitPlan := ⟨"Warrior", 25, 40, 60, 3, false, false, none⟩
def bowman : UnitPlan := ⟨"Bowman", 25, 35, 50, 3, false, false, none⟩
def mystic : UnitPlan := ⟨"Mystic", 30, 30, 40, 3, false, false, some "Beginner Spells"⟩
def settler : UnitPlan := ⟨"Settler", 60, 5, 20, 5, false, true, none⟩
def narcotician : UnitPlan := ⟨"Narcotician", 45, 60, 40, 2, true, false, none⟩
def mender : UnitPlan := ⟨"Mender", 30, 20, 40, 2, true, false, none⟩
def haruspex : UnitPlan := ⟨"Haruspex", 55, 80, 40, 2, false, false, some "Robotic Experiments"⟩
def fanatic : UnitPlan := ⟨"Fanatic", 50, 50, 90, 2, false, false, some "Divine Architecture"⟩

/-- Modelled from the spec: the ordered unit-blueprint catalogue; the settler
is the fourth plan, as pinned by the repository's tests. -/
def UNIT_PLANS : List UnitPlan :=
  [warrior, bowman, mystic, settler, narcotician, mender, haruspex, fanatic]

/-- Modelled from the spec: the ordered project catalogue (projects carry no
resource-effect vector and are excluded from resource scoring). -/
def PROJECTS : List Project := [⟨"Lucky Charm"⟩]

/-! ## Generic selection helpers

The engine's argument-maximising scans keep the first occurrence on ties
(catalogue order is load-bearing, spec section 6); a later element replaces
the current best only when its value is strictly greater. -/

/-- First-occurrence-wins maximiser: returns the element of the list whose
value under f is maximal, the earliest such element on ties. -/
def argmaxBy (f : α → Int) : List α → Option α
  | [] => none
  | x :: xs =>
    match argmaxBy f xs with
    | none => some x
    | some y => if f x < f y then some y else some x

/-- First-occurrence-wins minimiser, as the maximiser of the negated value. -/
def argminBy (f : α → Int) (l : List α) : Option α :=
  argmaxBy (fun a => -(f a)) l

/-! ## Deficit classification -/

/-- Value of one resource category in a 4-tuple of totals. -/
def resValue (r : Resource) (w h z f : Int) : Int :=
  match r with
  | .wealth => w
  | .harvest => h
  | .zeal => z
  | .fortune => f

/-- Modelled from the spec: section 4.2 step 2, deficit classification used
by the Construction Planner: the category with the minimum total among
wealth, harvest, zeal, fortune, with wealth checked first on ties, then
harvest, then zeal, then fortune (first-minimum-wins in that fixed order). -/
def lackingConstructionRes (w h z f : Int) : Resource :=
  if w = min (min w h) (min z f) then .wealth
  else if h = min (min w h) (min z f) then .harvest
  else if z = min (min w h) (min z f) then .zeal
  else .fortune

/-- Modelled from the spec: section 4.4 step 4, deficit classification used
by the Blessing Selector, the same first-minimum-wins rule as section 4.2
step 2 over the supplied 4-tuple. -/
def lackingBlessingRes (w h z f : Int) : Resource :=
  if w = min (min w h) (min z f) then .wealth
  else if h = min (min w h) (min z f) then .harvest
  else if z = min (min w h) (min z f) then .zeal
  else .fortune

/-! ## Availability and the yield calculator -/

/-- Whether the player has researched the blessing of the given name. -/
def researchedName (p : Player) (b : String) : Bool :=
  p.blessings.any (fun x => x.name == b)

/-- Whether the player has researched the given blessing. -/
def researched (p : Player) (b : Blessing) : Bool :=
  researchedName p b.name

/-- Whether an optional prerequisite blessing is satisfied for a player. -/
def prereqMet (p : Player) : Option String → Bool
  | none => true
  | some b => researchedName p b

/-- Modelled from the spec: the available improvements of a settlement -
catalogue order, prerequisite blessing researched, not already built. -/
def availableImprovements (p : Player) (s : Settlement) : List Improvement :=
  IMPROVEMENTS.filter
    (fun i => prereqMet p i.prereq && s.improvements.all (fun o => o.name != i.name))

/-- Modelled from the spec: the available unit blueprints of a player -
catalogue order, prerequisite blessing researched. -/
def availableUnitPlans (p : Player) : List UnitPlan :=
  UNIT_PLANS.filter (fun u => prereqMet p u.prereq)

/-- Yield of one resource category of a tile. -/
def quadValue (r : Resource) (q : Quad) : Int :=
  match r with
  | .wealth => q.wealth
  | .harvest => q.harvest
  | .zeal => q.zeal
  | .fortune => q.fortune

/-- Effect of one resource category of an effect vector. -/
def effectValue (r : Resource) (e : Effect) : Int :=
  match r with
  | .wealth => e.wealth
  | .harvest => e.harvest
  | .zeal => e.zeal
  | .fortune => e.fortune

/-- Modelled from the spec: the Yield Calculator, section 4.1 - a
settlement's total for one resource category, derived from its tiles and
built improvements; empty lists yield zero. -/
def settlementTotal (r : Resource) (s : Settlement) : Int :=
  (s.quads.map (quadValue r)).sum + (s.improvements.map (fun i => effectValue r i.effect)).sum

/-- The lacking resource of a settlement, section 4.2 step 2. -/
def lackingOf (s : Settlement) : Resource :=
  lackingConstructionRes (settlementTotal .wealth s) (settlementTotal .harvest s)
    (settlementTotal .zeal s) (settlementTotal .fortune s)

/-! ## Blessing Selector -/

/-- Whether a blessing unlocks at least one unit blueprint (lookup relation
over the catalogue). -/
def unlocksUnit (b : Blessing) : Bool :=
  UNIT_PLANS.any (fun u => u.prereq == some b.name)

/-- Whether a blessing unlocks at least one improvement with positive
strength effect. -/
def unlocksStrengthImprovement (b : Blessing) : Bool :=
  IMPROVEMENTS.any (fun i => i.prereq == some b.name && 0 < i.effect.strength)

/-- Sum of the lacking resource's value over the improvements a blessing
unlocks, section 4.4 step 4. -/
def blessingLackingSum (r : Resource) (b : Blessing) : Int :=
  ((IMPROVEMENTS.filter (fun i => i.prereq == some b.name)).map
    (fun i => effectValue r i.effect)).sum

/-- The unresearched blessings of a player, in catalogue order. -/
def availableBlessings (p : Player) : List Blessing :=
  BLESSINGS.filter (fun b => !researched p b)

/-- Modelled from the spec: the Blessing Selector, section 4.4.  Steps: (1)
if every blessing is researched, do nothing; (2) Aggressive: first
unresearched blessing unlocking a unit blueprint; (3) Defensive: first
unresearched blessing unlocking a positive-strength improvement; (4)
fallback: among unresearched blessings - excluding unit-unlocking ones for
an Aggressive player and strength-improvement-unlocking ones for a Defensive
player - the one whose unlocked improvements sum to the highest total of the
lacking resource, ties broken by catalogue order.  The selected blessing is
committed with zero accumulated progress; no change when no candidate is
found. -/
def set_blessing (p : Player) (totals : Int × Int × Int × Int) : Player :=
  let avail := availableBlessings p
  if avail.isEmpty then p
  else
    let r := lackingBlessingRes totals.1 totals.2.1 totals.2.2.1 totals.2.2.2
    let fallback : Player :=
      let pool :=
        match p.ai_playstyle.attacking with
        | .AGGRESSIVE => avail.filter (fun b => !unlocksUnit b)
        | .DEFENSIVE => avail.filter (fun b => !unlocksStrengthImprovement b)
        | .NEUTRAL => avail
      match argmaxBy (blessingLackingSum r) pool with
      | some b => { p with ongoing_blessing := some ⟨b, 0⟩ }
      | none => p
    match p.ai_playstyle.attacking with
    | .AGGRESSIVE =>
      match avail.find? unlocksUnit with
      | some b => { p with ongoing_blessing := some ⟨b, 0⟩ }
      | none => fallback
    | .DEFENSIVE =>
      match avail.find? unlocksStrengthImprovement with
      | some b => { p with ongoing_blessing := some ⟨b, 0⟩ }
      | none => fallback
    | .NEUTRAL => fallback

/-! ## Construction Planner

Fixed numeric thresholds.  The spec leaves the affordability ceiling of the
satisfaction-rescue and harvest-boundary branches open (section 9); the
reference scenarios pin it between the first and second tier of
satisfaction-granting improvements of the catalogue above. -/

/-- Modelled from the spec: the fixed affordability ceiling (turns) of
section 4.2 steps 3 and 4, pinned by the reference test scenarios. -/
def AFFORDABILITY_CEILING : Int := 25

/-- Modelled from the spec: the fixed minimum harvest boundary of section
4.2 step 4, pinned by the reference test scenarios (harvest 0 is below the
boundary, harvest 99 is above). -/
def HARVEST_BOUNDARY : Int := 5

/-- Score of a construction candidate for the ideal selection of section 4.2
step 5: improvements are valued by the lacking resource's effect, projects
and unit blueprints contribute zero. -/
def constructionScore (r : Resource) : Construction → Int
  | .improvement i => effectValue r i.effect
  | .project _ => 0
  | .unitPlan _ => 0

/-- Satisfaction effect of a construction candidate (zero for projects and
unit blueprints). -/
def constructionSatisfaction : Construction → Int
  | .improvement i => i.effect.satisfaction
  | .project _ => 0
  | .unitPlan _ => 0

/-- The candidate list of the ideal selection: available improvements, then
projects, then available unit blueprints, in catalogue order. -/
def idealCandidates (p : Player) (s : Settlement) : List Construction :=
  (availableImprovements p s).map .improvement
    ++ PROJECTS.map .project
    ++ (availableUnitPlans p).map .unitPlan

/-- Modelled from the spec: section 4.2 step 5, ideal selection: the single
maximum by the lacking resource's effect (first occurrence on ties); if the
ideal choice's satisfaction effect is negative, re-scan for the highest
lacking-value candidate with non-negative satisfaction effect; if every
candidate has a negative satisfaction effect, the original ideal stands. -/
def idealStep (r : Resource) (cands : List Construction) : Option Construction :=
  match argmaxBy (constructionScore r) cands with
  | none => none
  | some ideal =>
    if constructionSatisfaction ideal < 0 then
      match argmaxBy (constructionScore r)
          (cands.filter (fun c => 0 ≤ constructionSatisfaction c)) with
      | some better => some better
      | none => some ideal
    else some ideal

/-- The ideal selection of the Construction Planner: the ideal step over the
settlement's lacking resource and candidate list. -/
def idealSelection (p : Player) (s : Settlement) : Option Construction :=
  idealStep (lackingOf s) (idealCandidates p s)

/-- The satisfaction-rescue candidates of section 4.2 step 3: available
satisfaction-granting improvements whose build-turn cost does not exceed the
affordability ceiling.  The spec's ownership-count tiers collapse to this
set: every available improvement belongs to the tier equal to how many
satisfaction-granting improvements the settlement already owns, so the
lowest unowned tier is exactly the set of available candidates. -/
def satRescueCandidates (p : Player) (s : Settlement) : List Improvement :=
  (availableImprovements p s).filter
    (fun i => 0 < i.effect.satisfaction && i.cost ≤ AFFORDABILITY_CEILING)

/-- Modelled from the spec: section 4.2 step 3, satisfaction rescue: among
the affordable satisfaction-granting candidates, the one maximising
(satisfaction effect + harvest effect). -/
def satRescueSelection (p : Player) (s : Settlement) : Option Improvement :=
  argmaxBy (fun i => i.effect.satisfaction + i.effect.harvest) (satRescueCandidates p s)

/-- The affordable available improvements of the harvest-boundary branch. -/
def affordableImprovements (p : Player) (s : Settlement) : List Improvement :=
  (availableImprovements p s).filter (fun i => i.cost ≤ AFFORDABILITY_CEILING)

/-- Modelled from the spec: the shared base algorithm of the Construction
Planner, section 4.2: (1) no-units rule; (2) deficit classification (inside
idealSelection); (3) satisfaction rescue when satisfaction < 50, falling
through to ideal selection when nothing affordable; (4) harvest boundary;
(5) ideal selection. -/
def selectBaseConstruction (p : Player) (s : Settlement) : Option Construction :=
  if p.units = [] ∧ s.garrison = [] then
    (availableUnitPlans p).head?.map .unitPlan
  else if s.satisfaction < 50 then
    match satRescueSelection p s with
    | some i => some (.improvement i)
    | none => idealSelection p s
  else if settlementTotal .harvest s < HARVEST_BOUNDARY then
    match argmaxBy (fun i => i.effect.harvest) (affordableImprovements p s) with
    | some i => some (.improvement i)
    | none => idealSelection p s
  else idealSelection p s

/-- Modelled from the spec: the human-assist variant of the Construction
Planner - the shared base algorithm, committing the selected target with
zero accumulated progress; a no-op when no candidate exists. -/
def set_player_construction (p : Player) (s : Settlement) : Settlement :=
  match selectBaseConstruction p s with
  | some c => { s with current_work := some ⟨c, 0⟩ }
  | none => s

/-! ## Settler Policy and the unsupervised planner -/

/-- Modelled from the spec: the playstyle-specific settlement level
thresholds of the Settler Policy, section 4.3: Expansionist 3, Neutral 5,
Hermit 10. -/
def expansionThreshold : ExpansionPlaystyle → Nat
  | .EXPANSIONIST => 3
  | .NEUTRAL => 5
  | .HERMIT => 10

/-- Modelled from the spec: settler eligibility, section 4.3: the faction is
not the settler-disabled one, the settlement has not already produced a
settler, and either satisfaction is exactly at its minimum value (zero) or
the level has reached the playstyle-specific threshold. -/
def settlerEligible (p : Player) (s : Settlement) : Prop :=
  p.faction ≠ Faction.Concentrated ∧ s.produced_settler = false ∧
    (s.satisfaction = 0 ∨ expansionThreshold p.ai_playstyle.expansion ≤ s.level)

instance (p : Player) (s : Settlement) : Decidable (settlerEligible p s) := by
  unfold settlerEligible
  infer_instance

/-- Healer count across the player's deployed units and the settlement's
garrison, section 4.2 unsupervised overrides. -/
def healerCount (p : Player) (s : Settlement) : Nat :=
  ((p.units ++ s.garrison).filter (fun u => u.plan.heals)).length

/-- Non-healer unit count across the player's deployed units and the
settlement's garrison. -/
def nonHealerCount (p : Player) (s : Settlement) : Nat :=
  ((p.units ++ s.garrison).filter (fun u => !u.plan.heals)).length

/-- Modelled from the spec: the minimum healer count of the
aggressive-playstyle override.  The spec calls it a fixed minimum; the
repository's tests (test_movemaker.py, aggressive scenarios) pin it as
growing with the settlement level: no shortage at level 1 with no healers,
shortage at level 2 with no healers, none at level 2 with one healer. -/
def healerMinimum (level : Nat) : Nat := level - 1

/-- Modelled from the spec: the minimum healer count of the
defensive-playstyle override; the spec says it differs from the aggressive
minimum, and the repository's defensive scenarios pin it: no shortage at
level 1 with no healers, shortage at level 3 with no healers, none at level
3 with one healer. -/
def healerMinimumDefensive (level : Nat) : Nat := level - 2

/-- Modelled from the spec: the minimum non-healer unit count of the
playstyle overrides, pinned by the repository's tests as the settlement
level itself (one unit suffices at level 1 but not at level 2). -/
def unitMinimum (level : Nat) : Nat := level

/-- The healer blueprint with the highest healing proficiency among the
available plans; healing proficiency is carried by the blueprint's power
field, the only strength-like field of the spec's UnitBlueprint. -/
def bestHealerPlan (p : Player) : Option Construction :=
  (argmaxBy (fun u => u.power) ((availableUnitPlans p).filter (fun u => u.heals))).map .unitPlan

/-- The non-healer blueprint with the highest power among the available
plans. -/
def bestPowerPlan (p : Player) : Option Construction :=
  (argmaxBy (fun u => u.power) ((availableUnitPlans p).filter (fun u => !u.heals))).map .unitPlan

/-- The non-healer blueprint with the highest health among the available
plans. -/
def bestHealthPlan (p : Player) : Option Construction :=
  (argmaxBy (fun u => u.health) ((availableUnitPlans p).filter (fun u => !u.heals))).map .unitPlan

/-- The first available improvement with positive strength effect, in
catalogue order. -/
def firstStrengthImprovement (p : Player) (s : Settlement) : Option Improvement :=
  (availableImprovements p s).find? (fun i => 0 < i.effect.strength)

/-- Modelled from the spec: the unsupervised variant of the Construction
Planner, section 4.2 - the override stages checked in order before the
shared base algorithm, each short-circuiting the rest when it fires: the
settler override (section 4.3), then the Aggressive-playstyle overrides
(healer shortage, then unit shortage by power), then the
Defensive-playstyle overrides (healer shortage, unit shortage by health,
then the first strength-granting improvement). -/
def selectAIConstruction (p : Player) (s : Settlement) : Option Construction :=
  if settlerEligible p s then some (.unitPlan settler)
  else
    match p.ai_playstyle.attacking with
    | .AGGRESSIVE =>
      if healerCount p s < healerMinimum s.level then bestHealerPlan p
      else if nonHealerCount p s < unitMinimum s.level then bestPowerPlan p
      else selectBaseConstruction p s
    | .DEFENSIVE =>
      if healerCount p s < healerMinimumDefensive s.level then bestHealerPlan p
      else if nonHealerCount p s < unitMinimum s.level then bestHealthPlan p
      else
        match firstStrengthImprovement p s with
        | some i => some (.improvement i)
        | none => selectBaseConstruction p s
    | .NEUTRAL => selectBaseConstruction p s

/-- Modelled from the spec: the unsupervised Construction Planner entry
point, committing the selected target with zero accumulated progress; a
no-op when no candidate exists. -/
def set_ai_construction (p : Player) (s : Settlement) : Settlement :=
  match selectAIConstruction p s with
  | some c => { s with current_work := some ⟨c, 0⟩ }
  | none => s

/-! ## Relic Seeker / Movement Fallback

Modelled from the spec, section 4.5.  The grid is the tile matrix supplied
by the board; the distance metric of the movement-cost model is taken as the
Chebyshev distance (horizontal, vertical and diagonal steps cost one), the
metric consistent with the reference scenarios of section 8. -/

/-- The tile grid, indexed as grid[x][y] like the board's quads. -/
abbrev Grid : Type := List (List Quad)

/-- Tile lookup on the grid. -/
def getQuad (g : Grid) (c : Nat × Nat) : Option Quad :=
  match g.get? c.1 with
  | none => none
  | some row => row.get? c.2

/-- Whether the tile at a coordinate carries the point-of-interest flag. -/
def isRelicAt (g : Grid) (c : Nat × Nat) : Bool :=
  match getQuad g c with
  | some q => q.is_relic
  | none => false

/-- Chebyshev distance between two grid coordinates. -/
def cheb (a b : Nat × Nat) : Int :=
  max (Nat.dist a.1 b.1) (Nat.dist a.2 b.2)

/-- All coordinates of the grid, row-major. -/
def gridCoords (g : Grid) : List (Nat × Nat) :=
  (List.range g.length).flatMap
    (fun i => (List.range (((g.get? i).map List.length).getD 0)).map (fun j => (i, j)))

/-- The point-of-interest tiles within the unit's movement range. -/
def relicsInRange (g : Grid) (loc : Nat × Nat) (stamina : Nat) : List (Nat × Nat) :=
  (gridCoords g).filter (fun c => isRelicAt g c && cheb loc c ≤ (stamina : Int))

/-- Modelled from the spec: section 4.5 step 2, the nearest tile flagged as
a point of interest within the unit's movement range (first in scan order on
ties). -/
def findNearestRelic (g : Grid) (loc : Nat × Nat) (stamina : Nat) : Option (Nat × Nat) :=
  argminBy (cheb loc) (relicsInRange g loc stamina)

/-- The horizontally and vertically adjacent tiles of a coordinate. -/
def neighborTiles (c : Nat × Nat) : List (Nat × Nat) :=
  (if c.1 = 0 then [] else [(c.1 - 1, c.2)]) ++ [(c.1 + 1, c.2)]
    ++ (if c.2 = 0 then [] else [(c.1, c.2 - 1)]) ++ [(c.1, c.2 + 1)]

/-- The coordinates occupied by any unit (friendly or foe) or settlement. -/
def occupiedCoords (p : Player) (other_units : List GameUnit)
    (settlements : List Settlement) : List (Nat × Nat) :=
  (p.units ++ other_units).map (fun u => u.location) ++ settlements.map (fun s => s.location)

/-- Modelled from the spec: section 4.5 step 3, validity of an adjacent
approach tile: on the grid, on the unit's side of the point of interest (no
farther from the unit than the point of interest itself), and not occupied
by any other unit or settlement. -/
def validApproach (g : Grid) (occ : List (Nat × Nat)) (loc relic t : Nat × Nat) : Bool :=
  (getQuad g t).isSome && cheb loc t ≤ cheb loc relic && !occ.contains t

/-- The chosen approach tile: the valid adjacent destination nearest to the
unit (first in the adjacency order on ties). -/
def bestApproach (g : Grid) (occ : List (Nat × Nat)) (loc relic : Nat × Nat) :
    Option (Nat × Nat) :=
  argminBy (cheb loc) ((neighborTiles relic).filter (validApproach g occ loc relic))

/-- Clearing the point-of-interest flag of one tile. -/
def clearRelic (g : Grid) (c : Nat × Nat) : Grid :=
  match g.get? c.1 with
  | none => g
  | some row =>
    match row.get? c.2 with
    | none => g
    | some q => g.set c.1 (row.set c.2 { q with is_relic := false })

/-- The outcome of one relic-search invocation: the updated unit and grid. -/
structure MoveOutcome where
  unit : GameUnit
  quads : Grid
deriving DecidableEq

/-- Modelled from the spec: section 4.5 step 5, the bounded random move: the
injectable random source supplies a destination, taken when it is within
the remaining stamina, on the grid and unoccupied; the entire movement
budget is consumed regardless of the distance actually travelled. -/
def randomMove (u : GameUnit) (g : Grid) (occ : List (Nat × Nat))
    (randDest : Nat × Nat) : MoveOutcome :=
  let dest :=
    if cheb u.location randDest ≤ (u.remaining_stamina : Int)
        && (getQuad g randDest).isSome && !occ.contains randDest then randDest
    else u.location
  ⟨{ u with location := dest, remaining_stamina := 0 }, g⟩

/-- Modelled from the spec: the Relic Seeker state machine of section 4.5:
no-op on zero movement budget; otherwise find the nearest point of interest
in range; if an unobstructed adjacent approach tile exists, move there,
consume the entire budget and clear the flag; otherwise (or when no point of
interest is found) perform the bounded random move, leaving every flag
unchanged and consuming the entire budget. -/
def search_for_relics_or_move (u : GameUnit) (g : Grid) (p : Player)
    (other_units : List GameUnit) (settlements : List Settlement)
    (randDest : Nat × Nat) : MoveOutcome :=
  if u.remaining_stamina = 0 then ⟨u, g⟩
  else
    let occ := occupiedCoords p other_units settlements
    match findNearestRelic g u.location u.remaining_stamina with
    | some rc =>
      match bestApproach g occ u.location rc with
      | some t => ⟨{ u with location := t, remaining_stamina := 0 }, clearRelic g rc⟩
      | none => randomMove u g occ randDest
    | none => randomMove u g occ randDest

/-! ## Concrete scenarios

Fixtures mirroring the reference scenarios of the spec (section 8) and of
the repository's test suite, used by the concrete parts of the claims. -/

/-- A deployed non-healer unit. -/
def scoutUnit : GameUnit := ⟨1, 3, (3, 4), false, warrior⟩

/-- A deployed healer unit. -/
def healerUnit : GameUnit := ⟨1, 2, (5, 6), false, narcotician⟩

/-- The neutral-neutral playstyle. -/
def neutralStyle : AIPlaystyle := ⟨.NEUTRAL, .NEUTRAL⟩

/-- The aggressive-neutral playstyle. -/
def aggressiveStyle : AIPlaystyle := ⟨.AGGRESSIVE, .NEUTRAL⟩

/-- A quad whose yields make wealth the lacking resource while staying above
the harvest boundary: wealth 0, harvest 100, zeal 1, fortune 1. -/
def wealthQuad : Quad := ⟨.SEA, 0, 100, 1, 1, false⟩

/-- A quad whose yields make zeal the lacking resource while staying above
the harvest boundary: wealth 1, harvest 100, zeal 0, fortune 1. -/
def zealQuad : Quad := ⟨.SEA, 1, 100, 0, 1, false⟩

/-- A settlement with no tiles, no improvements, satisfaction 50, level 1,
empty garrison and no settler produced. -/
def baseSettlement : Settlement := ⟨"Obstructionville", (0, 0), [], [], 50, 1, [], false, none⟩

/-- The wealth scenario settlement of section 8: quads yielding
(wealth 0, harvest 100, zeal 1, fortune 1). -/
def wealthSettlement : Settlement := { baseSettlement with quads := [wealthQuad] }

/-- The wealth scenario player: every blessing researched except the one
unlocking the highest-wealth improvement (Self-Locking Vaults). -/
def wealthPlayer : Player :=
  ⟨"TesterMan", .Nocturne, [scoutUnit],
    [beg_spl, rud_exp, eco_mov, met_alt, rob_exp, div_arc, art_pht], none, neutralStyle⟩

/-- A player with every blessing researched, one deployed non-healer unit
and the neutral playstyle. -/
def allBlessingsPlayer : Player :=
  ⟨"TesterMan", .Nocturne, [scoutUnit], BLESSINGS, none, neutralStyle⟩

/-- The dissatisfied scenario settlement: satisfaction 49, zeal lacking. -/
def unsatisfiedSettlement : Settlement :=
  { baseSettlement with quads := [zealQuad], satisfaction := 49 }

/-- The dissatisfied scenario once the settlement owns the whole first tier
of satisfaction-granting improvements. -/
def tooExpensiveSettlement : Settlement :=
  { unsatisfiedSettlement with
      improvements := [aqueduct, collectivised_farms, city_market, melting_pot,
        insurmountable_walls] }

/-- The aggressive scenario player: every blessing researched, one deployed
non-healer unit. -/
def aggressivePlayer : Player := { allBlessingsPlayer with ai_playstyle := aggressiveStyle }

/-- The aggressive scenario player whose only unit is a healer. -/
def aggressiveHealerPlayer : Player := { aggressivePlayer with units := [healerUnit] }

/-- The aggressive scenario player with no deployed units at all. -/
def aggressiveNoUnitsPlayer : Player := { aggressivePlayer with units := [] }

/-- The zeal-lacking settlement at a given level. -/
def levelSettlement (lvl : Nat) : Settlement :=
  { baseSettlement with quads := [zealQuad], level := lvl }

/-- A tile with unit yields and no point of interest. -/
def plainQuad : Quad := ⟨.FOREST, 1, 1, 1, 1, false⟩

/-- A tile with unit yields carrying the point-of-interest flag. -/
def relicQuad : Quad := ⟨.FOREST, 1, 1, 1, 1, true⟩

/-- A five-by-three grid whose only point of interest sits at (3, 1). -/
def relicGrid : Grid :=
  [[plainQuad, plainQuad, plainQuad],
   [plainQuad, plainQuad, plainQuad],
   [plainQuad, plainQuad, plainQuad],
   [plainQuad, relicQuad, plainQuad],
   [plainQuad, plainQuad, plainQuad]]

/-- A five-by-three grid with no point of interest. -/
def emptyGrid : Grid :=
  [[plainQuad, plainQuad, plainQuad],
   [plainQuad, plainQuad, plainQuad],
   [plainQuad, plainQuad, plainQuad],
   [plainQuad, plainQuad, plainQuad],
   [plainQuad, plainQuad, plainQuad]]

/-- The searching unit, two tiles left of the point of interest, with full
stamina. -/
def seekerUnit : GameUnit := ⟨1, 3, (1, 1), false, warrior⟩

/-- The player owning the searching unit. -/
def seekerPlayer : Player := ⟨"Seeker", .Nocturne, [seekerUnit], [], none, neutralStyle⟩

/-- A friendly unit obstructing the approach tile left of the point of
interest. -/
def blockerFriend : GameUnit := ⟨1, 1, (2, 1), false, warrior⟩

/-- A foe unit obstructing the approach tile below the point of interest. -/
def blockerFoe : GameUnit := ⟨1, 1, (3, 2), false, warrior⟩

/-- A settlement obstructing the approach tile above the point of
interest. -/
def blockerSettlement : Settlement := { baseSettlement with location := (3, 0) }

/-- The seeker's player once a friendly unit stands on an approach tile. -/
def obstructedPlayer : Player := { seekerPlayer with units := [seekerUnit, blockerFriend] }

/-! ## Properties of the selection helpers -/

theorem argmaxBy_cons_def {f : α → Int} {a : α} {l : List α} :
    argmaxBy f (a :: l) =
      match argmaxBy f l with
      | none => some a
      | some y => if f a < f y then some y else some a := rfl

theorem argmaxBy_eq_none {f : α → Int} {l : List α} :
    argmaxBy f l = none ↔ l = [] := by
  cases l with
  | nil => simp [argmaxBy]
  | cons a t =>
    constructor
    · intro hyp
      exfalso
      rw [argmaxBy_cons_def] at hyp
      cases ht : argmaxBy f t with
      | none => rw [ht] at hyp; exact Option.noConfusion hyp
      | some y =>
        rw [ht] at hyp
        dsimp only at hyp
        by_cases hc : f a < f y
        · rw [if_pos hc] at hyp; exact Option.noConfusion hyp
        · rw [if_neg hc] at hyp; exact Option.noConfusion hyp
    · intro hyp; exact absurd hyp (List.cons_ne_nil a t)

theorem argmaxBy_mem {f : α → Int} :
    ∀ {l : List α} {x : α}, argmaxBy f l = some x → x ∈ l := by
  intro l
  induction l with
  | nil => intro x hyp; simp [argmaxBy] at hyp
  | cons a t ih =>
    intro x hyp
    rw [argmaxBy_cons_def] at hyp
    cases ht : argmaxBy f t with
    | none =>
      rw [ht] at hyp
      dsimp only at hyp
      obtain rfl := Option.some.inj hyp
      exact List.mem_cons_self _ _
    | some y =>
      rw [ht] at hyp
      dsimp only at hyp
      by_cases hc : f a < f y
      · rw [if_pos hc] at hyp
        obtain rfl := Option.some.inj hyp
        exact List.mem_cons_of_mem _ (ih ht)
      · rw [if_neg hc] at hyp
        obtain rfl := Option.some.inj hyp
        exact List.mem_cons_self _ _

theorem argmaxBy_le {f : α → Int} :
    ∀ {l : List α} {x : α}, argmaxBy f l = some x → ∀ y ∈ l, f y ≤ f x := by
  intro l
  induction l with
  | nil => intro x hyp; simp [argmaxBy] at hyp
  | cons a t ih =>
    intro x hyp y hy
    rw [argmaxBy_cons_def] at hyp
    cases ht : argmaxBy f t with
    | none =>
      rw [ht] at hyp
      dsimp only at hyp
      obtain rfl := Option.some.inj hyp
      have hte : t = [] := argmaxBy_eq_none.mp ht
      subst hte
      rcases List.mem_singleton.mp hy with rfl
      exact le_refl _
    | some z =>
      rw [ht] at hyp
      dsimp only at hyp
      by_cases hc : f a < f z
      · rw [if_pos hc] at hyp
        obtain rfl := Option.some.inj hyp
        rcases List.mem_cons.mp hy with rfl | hyt
        · exact le_of_lt hc
        · exact ih ht y hyt
      · rw [if_neg hc] at hyp
        obtain rfl := Option.some.inj hyp
        rcases List.mem_cons.mp hy with rfl | hyt
        · exact le_refl _
        · exact le_trans (ih ht y hyt) (not_lt.mp hc)

theorem argmaxBy_cons_elim {f : α → Int} {a : α} {l : List α} {x : α}
    (hyp : argmaxBy f (a :: l) = some x) :
    x = a ∨ (argmaxBy f l = some x ∧ f a < f x) := by
  rw [argmaxBy_cons_def] at hyp
  cases ht : argmaxBy f l with
  | none => rw [ht] at hyp; exact Or.inl (Option.some.inj hyp).symm
  | some y =>
    rw [ht] at hyp
    dsimp only at hyp
    by_cases hc : f a < f y
    · rw [if_pos hc] at hyp
      obtain rfl := Option.some.inj hyp
      exact Or.inr ⟨rfl, hc⟩
    · rw [if_neg hc] at hyp
      exact Or.inl (Option.some.inj hyp).symm

theorem argmaxBy_append_cases {f : α → Int} :
    ∀ (l₁ : List α) {l₂ : List α} {x : α},
      argmaxBy f (l₁ ++ l₂) = some x → x ∈ l₁ ∨ argmaxBy f l₂ = some x := by
  intro l₁
  induction l₁ with
  | nil => intro l₂ x hyp; exact Or.inr hyp
  | cons a t ih =>
    intro l₂ x hyp
    rcases argmaxBy_cons_elim hyp with rfl | ⟨h2, _⟩
    · exact Or.inl (List.mem_cons_self _ _)
    · rcases ih h2 with hl | hr
      · exact Or.inl (List.mem_cons_of_mem _ hl)
      · exact Or.inr hr

theorem argminBy_mem {f : α → Int} {l : List α} {x : α}
    (hyp : argminBy f l = some x) : x ∈ l :=
  argmaxBy_mem hyp

theorem argminBy_le {f : α → Int} {l : List α} {x : α}
    (hyp : argminBy f l = some x) : ∀ y ∈ l, f x ≤ f y := by
  intro y hy
  have := argmaxBy_le hyp y hy
  omega

/-! ## Claim C3: agreement and characterisation of the lacking resource -/

/-- C3: for every 4-tuple of resource totals, the lacking resource computed
by the Blessing Selector and the one computed by the Construction Planner
are both the category with the minimum total, ties resolved by the fixed
order wealth, harvest, zeal, fortune (first minimum wins), and the two
components agree on every input tuple. -/
theorem claim_C3_lacking_resource_agreement (w h z f : Int) :
    lackingBlessingRes w h z f = lackingConstructionRes w h z f ∧
    resValue (lackingConstructionRes w h z f) w h z f = min (min w h) (min z f) ∧
    (∀ r : Resource, resValue r w h z f = min (min w h) (min z f) →
      resIdx (lackingConstructionRes w h z f) ≤ resIdx r) := by
  have hmem : min (min w h) (min z f) = w ∨ min (min w h) (min z f) = h ∨
      min (min w h) (min z f) = z ∨ min (min w h) (min z f) = f := by
    rcases min_choice (min w h) (min z f) with h1 | h1 <;> rw [h1]
    · rcases min_choice w h with h2 | h2 <;> rw [h2]
      · exact Or.inl rfl
      · exact Or.inr (Or.inl rfl)
    · rcases min_choice z f with h2 | h2 <;> rw [h2]
      · exact Or.inr (Or.inr (Or.inl rfl))
      · exact Or.inr (Or.inr (Or.inr rfl))
  refine ⟨rfl, ?_, ?_⟩
  · unfold lackingConstructionRes
    split_ifs with e1 e2 e3
    · simpa [resValue] using e1
    · simpa [resValue] using e2
    · simpa [resValue] using e3
    · simp only [resValue]
      rcases hmem with hv | hv | hv | hv
      · exact absurd hv.symm e1
      · exact absurd hv.symm e2
      · exact absurd hv.symm e3
      · exact hv.symm
  · unfold lackingConstructionRes
    split_ifs with e1 e2 e3 <;> intro r hr <;> cases r <;>
      simp only [resValue] at hr <;> simp only [resIdx]
    all_goals first
      | exact Nat.zero_le _
      | exact absurd hr e1
      | exact absurd hr e2
      | exact absurd hr e3
      | omega

/-- Witness for C3 at the concrete totals (0, 1, 1, 1) and the wealth
category. -/
theorem claim_C3_lacking_resource_agreement_witness :
    lackingBlessingRes 0 1 1 1 = lackingConstructionRes 0 1 1 1 ∧
    resValue (lackingConstructionRes 0 1 1 1) 0 1 1 1 = min (min 0 1) (min 1 1) ∧
    resIdx (lackingConstructionRes 0 1 1 1) ≤ resIdx .wealth :=
  ⟨(claim_C3_lacking_resource_agreement 0 1 1 1).1,
   (claim_C3_lacking_resource_agreement 0 1 1 1).2.1,
   (claim_C3_lacking_resource_agreement 0 1 1 1).2.2 .wealth (by decide)⟩

/-! ## Claim C8: no mutation when every blessing is researched -/

/-- C8: for every unsupervised player who has already researched every
blessing in the catalogue, invoking the Blessing Selector leaves the player
unchanged - in particular the in-progress blessing stays as it was (unset if
it was unset); no mutation is committed when no candidate exists. -/
theorem claim_C8_all_blessings_researched (p : Player) (t : Int × Int × Int × Int)
    (hall : ∀ b ∈ BLESSINGS, researched p b = true) :
    set_blessing p t = p ∧
    (set_blessing p t).ongoing_blessing = p.ongoing_blessing := by
  have havail : availableBlessings p = [] := by
    unfold availableBlessings
    rw [List.filter_eq_nil_iff]
    intro b hb
    simp [hall b hb]
  have hmain : set_blessing p t = p := by
    unfold set_blessing
    rw [havail]
    rfl
  exact ⟨hmain, by rw [hmain]⟩

/-- Witness for C8: a concrete player holding the whole catalogue, with an
unset in-progress blessing that stays unset. -/
theorem claim_C8_all_blessings_researched_witness :
    set_blessing allBlessingsPlayer (0, 0, 0, 0) = allBlessingsPlayer ∧
    (set_blessing allBlessingsPlayer (0, 0, 0, 0)).ongoing_blessing = none :=
  ⟨(claim_C8_all_blessings_researched allBlessingsPlayer (0, 0, 0, 0) (by decide)).1,
   by rw [(claim_C8_all_blessings_researched allBlessingsPlayer (0, 0, 0, 0) (by decide)).1]; rfl⟩

/-! ## Claim C9: idempotence of the Construction Planner -/

theorem selectBase_ignores_current_work (p : Player) (s : Settlement) (w : Option Work) :
    selectBaseConstruction p { s with current_work := w } = selectBaseConstruction p s := by
  cases s
  rfl

theorem selectAI_ignores_current_work (p : Player) (s : Settlement) (w : Option Work) :
    selectAIConstruction p { s with current_work := w } = selectAIConstruction p s := by
  cases s
  rfl

/-- C9: for every player and settlement, invoking the Construction Planner
twice in succession on the same unchanged inputs selects the same
construction target both times, for the human-assist and the unsupervised
variant alike; committing the selection is idempotent. -/
theorem claim_C9_planner_idempotent (p : Player) (s : Settlement) :
    selectBaseConstruction p (set_player_construction p s) = selectBaseConstruction p s ∧
    selectAIConstruction p (set_ai_construction p s) = selectAIConstruction p s ∧
    set_player_construction p (set_player_construction p s) = set_player_construction p s ∧
    set_ai_construction p (set_ai_construction p s) = set_ai_construction p s := by
  have hb : selectBaseConstruction p (set_player_construction p s)
      = selectBaseConstruction p s := by
    cases hsel : selectBaseConstruction p s with
    | none =>
      have hset : set_player_construction p s = s := by
        simp only [set_player_construction, hsel]
      rw [hset]
      exact hsel
    | some c =>
      have hset : set_player_construction p s = { s with current_work := some ⟨c, 0⟩ } := by
        simp only [set_player_construction, hsel]
      rw [hset, selectBase_ignores_current_work p s _]
      exact hsel
  have ha : selectAIConstruction p (set_ai_construction p s)
      = selectAIConstruction p s := by
    cases hsel : selectAIConstruction p s with
    | none =>
      have hset : set_ai_construction p s = s := by
        simp only [set_ai_construction, hsel]
      rw [hset]
      exact hsel
    | some c =>
      have hset : set_ai_construction p s = { s with current_work := some ⟨c, 0⟩ } := by
        simp only [set_ai_construction, hsel]
      rw [hset, selectAI_ignores_current_work p s _]
      exact hsel
  refine ⟨hb, ha, ?_, ?_⟩
  · cases hsel : selectBaseConstruction p s with
    | none =>
      have hset : set_player_construction p s = s := by
        simp only [set_player_construction, hsel]
      rw [hset]
      exact hset
    | some c =>
      have hset : set_player_construction p s = { s with current_work := some ⟨c, 0⟩ } := by
        simp only [set_player_construction, hsel]
      have hsel2 : selectBaseConstruction p { s with current_work := some ⟨c, 0⟩ } = some c := by
        rw [selectBase_ignores_current_work p s _]
        exact hsel
      rw [hset]
      simp only [set_player_construction, hsel2]
  · cases hsel : selectAIConstruction p s with
    | none =>
      have hset : set_ai_construction p s = s := by
        simp only [set_ai_construction, hsel]
      rw [hset]
      exact hset
    | some c =>
      have hset : set_ai_construction p s = { s with current_work := some ⟨c, 0⟩ } := by
        simp only [set_ai_construction, hsel]
      have hsel2 : selectAIConstruction p { s with current_work := some ⟨c, 0⟩ } = some c := by
        rw [selectAI_ignores_current_work p s _]
        exact hsel
      rw [hset]
      simp only [set_ai_construction, hsel2]

/-! ## Claim C7: the no-units rule -/

theorem availableUnitPlans_eq (p : Player) :
    availableUnitPlans p =
      warrior :: List.filter (fun u => prereqMet p u.prereq)
        [bowman, mystic, settler, narcotician, mender, haruspex, fanatic] := rfl

/-- C7 (counterexample): an unsupervised aggressive player with zero
deployed units and an empty garrison is assigned the highest-power blueprint
(Haruspex) by the unsupervised planner, not the first catalogue unit
blueprint (Warrior): the aggressive unit-shortage override precedes the
no-units rule. -/
theorem claim_C7_counterexample :
    aggressiveNoUnitsPlayer.units = [] ∧ baseSettlement.garrison = [] ∧
    UNIT_PLANS.head? = some warrior ∧
    (set_ai_construction aggressiveNoUnitsPlayer baseSettlement).current_work =
      some ⟨.unitPlan haruspex, 0⟩ ∧
    haruspex ≠ warrior := by
  refine ⟨rfl, rfl, rfl, ?_, by decide⟩
  rfl

/-- C7 (amended): for every player with zero deployed units whose settlement
has an empty garrison, the human-assist Construction Planner selects the
first catalogue unit blueprint regardless of the settlement's resource
state; the unsupervised variant does so as well provided none of its
override stages fires (neutral attacking playstyle and settler
ineligibility). -/
theorem claim_C7_no_units_first_blueprint (p : Player) (s : Settlement)
    (hu : p.units = []) (hg : s.garrison = []) :
    selectBaseConstruction p s = some (.unitPlan warrior) ∧
    set_player_construction p s = { s with current_work := some ⟨.unitPlan warrior, 0⟩ } ∧
    (p.ai_playstyle.attacking = .NEUTRAL → ¬settlerEligible p s →
      selectAIConstruction p s = some (.unitPlan warrior) ∧
      set_ai_construction p s = { s with current_work := some ⟨.unitPlan warrior, 0⟩ }) ∧
    UNIT_PLANS.head? = some warrior := by
  have hbase : selectBaseConstruction p s = some (.unitPlan warrior) := by
    unfold selectBaseConstruction
    rw [if_pos ⟨hu, hg⟩, availableUnitPlans_eq p]
    rfl
  refine ⟨hbase, by simp only [set_player_construction, hbase], ?_, rfl⟩
  intro hN hE
  have hai : selectAIConstruction p s = some (.unitPlan warrior) := by
    unfold selectAIConstruction
    rw [if_neg hE]
    simp only [hN]
    exact hbase
  exact ⟨hai, by simp only [set_ai_construction, hai]⟩

/-- Witness for the amended C7 at a concrete neutral player with no units
and the base settlement. -/
theorem claim_C7_no_units_first_blueprint_witness :
    selectBaseConstruction { allBlessingsPlayer with units := [] } baseSettlement
      = some (.unitPlan warrior) ∧
    selectAIConstruction { allBlessingsPlayer with units := [] } baseSettlement
      = some (.unitPlan warrior) :=
  ⟨(claim_C7_no_units_first_blueprint _ _ rfl rfl).1,
   ((claim_C7_no_units_first_blueprint { allBlessingsPlayer with units := [] }
      baseSettlement rfl rfl).2.2.1 rfl (by decide)).1⟩

/-! ## Claim C10: the aggressive sufficiency threshold grows with level -/

/-- C10: for an aggressive unsupervised player owning exactly one deployed
non-healer unit, the shortage overrides do not fire at settlement level 1
(the shared ideal selection runs, here yielding Endless Mine) but fire at
settlement level 2 (yielding the highest-healing blueprint, or the
highest-power blueprint when the sole unit is already a healer), with the
unit multiset unchanged between the two levels: the sufficiency threshold of
the playstyle override grows with the settlement level instead of being a
level-independent constant. -/
theorem claim_C10_aggressive_threshold_grows_with_level :
    selectAIConstruction aggressivePlayer (levelSettlement 1)
      = selectBaseConstruction aggressivePlayer (levelSettlement 1) ∧
    selectBaseConstruction aggressivePlayer (levelSettlement 1)
      = some (.improvement endless_mine) ∧
    selectAIConstruction aggressivePlayer (levelSettlement 2)
      = some (.unitPlan narcotician) ∧
    selectAIConstruction aggressiveHealerPlayer (levelSettlement 2)
      = some (.unitPlan haruspex) ∧
    aggressivePlayer.units = [scoutUnit] ∧
    scoutUnit.plan.heals = false ∧
    healerCount aggressivePlayer (levelSettlement 1)
      = healerCount aggressivePlayer (levelSettlement 2) ∧
    nonHealerCount aggressivePlayer (levelSettlement 1)
      = nonHealerCount aggressivePlayer (levelSettlement 2) ∧
    ¬(healerCount aggressivePlayer (levelSettlement 1)
        < healerMinimum (levelSettlement 1).level ∨
      nonHealerCount aggressivePlayer (levelSettlement 1)
        < unitMinimum (levelSettlement 1).level) ∧
    (healerCount aggressivePlayer (levelSettlement 2)
      < healerMinimum (levelSettlement 2).level) := by
  refine ⟨rfl, rfl, rfl, rfl, rfl, rfl, rfl, rfl, by decide, by decide⟩

/-! ## Claim C6: playstyle preferences of the Blessing Selector -/

/-- C6: for every unsupervised player with unresearched blessings remaining,
an Aggressive player gets the first unresearched blessing in catalogue order
unlocking a unit blueprint, a Defensive player the first unlocking a
positive-strength improvement; when no such blessing remains the selector
falls back to lacking-resource scoring over unlocked improvements, excluding
unit-unlocking blessings for an Aggressive player and
strength-improvement-unlocking ones for a Defensive player. -/
theorem claim_C6_blessing_playstyle (p : Player) (t : Int × Int × Int × Int) :
    (∀ b, p.ai_playstyle.attacking = .AGGRESSIVE →
      (availableBlessings p).find? unlocksUnit = some b →
      (set_blessing p t).ongoing_blessing = some ⟨b, 0⟩ ∧
        unlocksUnit b = true ∧ b ∈ availableBlessings p) ∧
    (∀ b, p.ai_playstyle.attacking = .DEFENSIVE →
      (availableBlessings p).find? unlocksStrengthImprovement = some b →
      (set_blessing p t).ongoing_blessing = some ⟨b, 0⟩ ∧
        unlocksStrengthImprovement b = true ∧ b ∈ availableBlessings p) ∧
    (∀ c, p.ai_playstyle.attacking = .AGGRESSIVE →
      (availableBlessings p).find? unlocksUnit = none →
      argmaxBy (blessingLackingSum (lackingBlessingRes t.1 t.2.1 t.2.2.1 t.2.2.2))
          ((availableBlessings p).filter (fun b => !unlocksUnit b)) = some c →
      (set_blessing p t).ongoing_blessing = some ⟨c, 0⟩ ∧
        (∀ b ∈ availableBlessings p, unlocksUnit b = false →
          blessingLackingSum (lackingBlessingRes t.1 t.2.1 t.2.2.1 t.2.2.2) b ≤
            blessingLackingSum (lackingBlessingRes t.1 t.2.1 t.2.2.1 t.2.2.2) c)) ∧
    (∀ c, p.ai_playstyle.attacking = .DEFENSIVE →
      (availableBlessings p).find? unlocksStrengthImprovement = none →
      argmaxBy (blessingLackingSum (lackingBlessingRes t.1 t.2.1 t.2.2.1 t.2.2.2))
          ((availableBlessings p).filter (fun b => !unlocksStrengthImprovement b)) = some c →
      (set_blessing p t).ongoing_blessing = some ⟨c, 0⟩ ∧
        (∀ b ∈ availableBlessings p, unlocksStrengthImprovement b = false →
          blessingLackingSum (lackingBlessingRes t.1 t.2.1 t.2.2.1 t.2.2.2) b ≤
            blessingLackingSum (lackingBlessingRes t.1 t.2.1 t.2.2.1 t.2.2.2) c)) := by
  have hemp : ∀ b : Blessing, b ∈ availableBlessings p →
      (availableBlessings p).isEmpty = false := by
    intro b hb
    cases hav : availableBlessings p with
    | nil => rw [hav] at hb; exact absurd hb (List.not_mem_nil b)
    | cons x xs => rfl
  refine ⟨?_, ?_, ?_, ?_⟩
  · intro b hA hf
    have hb := List.mem_of_find?_eq_some hf
    have hne := hemp b hb
    refine ⟨?_, List.find?_some hf, hb⟩
    simp only [set_blessing, hne, Bool.false_eq_true, if_false, hA, hf]
  · intro b hA hf
    have hb := List.mem_of_find?_eq_some hf
    have hne := hemp b hb
    refine ⟨?_, List.find?_some hf, hb⟩
    simp only [set_blessing, hne, Bool.false_eq_true, if_false, hA, hf]
  · intro c hA hf hm
    have hc := argmaxBy_mem hm
    have hne := hemp c (List.mem_filter.mp hc).1
    constructor
    · simp only [set_blessing, hne, Bool.false_eq_true, if_false, hA, hf, hm]
    · intro b hb hnb
      exact argmaxBy_le hm b (List.mem_filter.mpr ⟨hb, by simp [hnb]⟩)
  · intro c hA hf hm
    have hc := argmaxBy_mem hm
    have hne := hemp c (List.mem_filter.mp hc).1
    constructor
    · simp only [set_blessing, hne, Bool.false_eq_true, if_false, hA, hf, hm]
    · intro b hb hnb
      exact argmaxBy_le hm b (List.mem_filter.mpr ⟨hb, by simp [hnb]⟩)

/-- Witness for C6 at four concrete players: a fresh Aggressive player gets
Beginner Spells (first unit-unlocking), a fresh Defensive player gets
Rudimentary Explosives (first strength-unlocking), an Aggressive player who
researched every unit-unlocking blessing falls back to the best wealth
blessing (Self-Locking Vaults), and a Defensive player who researched the
strength-unlocking blessing falls back to the best harvest blessing
(Artificial Photosynthesis). -/
theorem claim_C6_blessing_playstyle_witness :
    (set_blessing { aggressivePlayer with blessings := [] } (0, 0, 0, 0)).ongoing_blessing
      = some ⟨beg_spl, 0⟩ ∧
    (set_blessing { allBlessingsPlayer with
        ai_playstyle := ⟨.DEFENSIVE, .NEUTRAL⟩, blessings := [] } (0, 0, 0, 0)).ongoing_blessing
      = some ⟨rud_exp, 0⟩ ∧
    (set_blessing { aggressivePlayer with
        blessings := [beg_spl, rob_exp, div_arc] } (0, 1, 1, 1)).ongoing_blessing
      = some ⟨sl_vau, 0⟩ ∧
    (set_blessing { allBlessingsPlayer with
        ai_playstyle := ⟨.DEFENSIVE, .NEUTRAL⟩, blessings := [rud_exp] } (1, 0, 1, 1)).ongoing_blessing
      = some ⟨art_pht, 0⟩ :=
  ⟨((claim_C6_blessing_playstyle { aggressivePlayer with blessings := [] } (0, 0, 0, 0)).1
      beg_spl rfl (by decide)).1,
   ((claim_C6_blessing_playstyle { allBlessingsPlayer with
        ai_playstyle := ⟨.DEFENSIVE, .NEUTRAL⟩, blessings := [] } (0, 0, 0, 0)).2.1
      rud_exp rfl (by decide)).1,
   ((claim_C6_blessing_playstyle { aggressivePlayer with
        blessings := [beg_spl, rob_exp, div_arc] } (0, 1, 1, 1)).2.2.1
      sl_vau rfl (by decide) (by decide)).1,
   ((claim_C6_blessing_playstyle { allBlessingsPlayer with
        ai_playstyle := ⟨.DEFENSIVE, .NEUTRAL⟩, blessings := [rud_exp] } (1, 0, 1, 1)).2.2.2
      art_pht rfl (by decide) (by decide)).1⟩

/-! ## Claim C1: the non-negative-satisfaction re-scan of ideal selection -/

/-- C1: in the ideal-selection step, the planner first computes the
candidate maximising the lacking resource's effect; exactly when that ideal
candidate's satisfaction effect is negative it instead selects the highest
lacking-value candidate with non-negative satisfaction effect, and when
every candidate is negative the original ideal stands.  In the concrete
wealth scenario (quads yielding wealth 0, harvest 100, zeal 1, fortune 1,
every blessing but Self-Locking Vaults researched) the planner selects
Federal Museum rather than the ideal Planned Economy. -/
theorem claim_C1_ideal_negative_satisfaction_rescan (r : Resource)
    (cands : List Construction) :
    (∀ ideal, argmaxBy (constructionScore r) cands = some ideal →
      0 ≤ constructionSatisfaction ideal →
      idealStep r cands = some ideal) ∧
    (∀ ideal better, argmaxBy (constructionScore r) cands = some ideal →
      constructionSatisfaction ideal < 0 →
      argmaxBy (constructionScore r)
          (cands.filter (fun c => 0 ≤ constructionSatisfaction c)) = some better →
      idealStep r cands = some better ∧
        0 ≤ constructionSatisfaction better ∧ better ∈ cands ∧
        (∀ c ∈ cands, 0 ≤ constructionSatisfaction c →
          constructionScore r c ≤ constructionScore r better)) ∧
    (∀ ideal, argmaxBy (constructionScore r) cands = some ideal →
      constructionSatisfaction ideal < 0 →
      (∀ c ∈ cands, constructionSatisfaction c < 0) →
      idealStep r cands = some ideal) ∧
    ((set_player_construction wealthPlayer wealthSettlement).current_work
      = some ⟨.improvement federal_museum, 0⟩ ∧
     lackingOf wealthSettlement = .wealth ∧
     argmaxBy (constructionScore .wealth) (idealCandidates wealthPlayer wealthSettlement)
      = some (.improvement planned_economy) ∧
     planned_economy.effect.satisfaction < 0 ∧
     0 ≤ federal_museum.effect.satisfaction ∧
     federal_museum ≠ planned_economy) := by
  refine ⟨?_, ?_, ?_, rfl, rfl, by decide, by decide, by decide, by decide⟩
  · intro ideal hmax hsat
    unfold idealStep
    rw [hmax]
    dsimp only
    rw [if_neg (not_lt.mpr hsat)]
  · intro ideal better hmax hneg hre
    have hmem := argmaxBy_mem hre
    have hmem2 := List.mem_filter.mp hmem
    refine ⟨?_, ?_, hmem2.1, ?_⟩
    · unfold idealStep
      rw [hmax]
      dsimp only
      rw [if_pos hneg, hre]
    · simpa using hmem2.2
    · intro c hc hcs
      exact argmaxBy_le hre c (List.mem_filter.mpr ⟨hc, by simpa using hcs⟩)
  · intro ideal hmax hneg hall
    have hfil : cands.filter (fun c => 0 ≤ constructionSatisfaction c) = [] := by
      rw [List.filter_eq_nil_iff]
      intro c hc
      simpa using not_le.mpr (hall c hc)
    unfold idealStep
    rw [hmax]
    dsimp only
    rw [if_pos hneg, hfil]
    rfl

/-- Witness for C1: the re-scan case at the concrete wealth scenario (ideal
Planned Economy has negative satisfaction, Federal Museum is the best
non-negative candidate), the no-re-scan case once Self-Locking Vaults is
researched (ideal Treasure Vaults keeps a non-negative satisfaction effect),
and the all-negative case on a one-candidate list. -/
theorem claim_C1_ideal_negative_satisfaction_rescan_witness :
    idealStep .wealth (idealCandidates wealthPlayer wealthSettlement)
      = some (.improvement federal_museum) ∧
    idealStep .wealth (idealCandidates allBlessingsPlayer wealthSettlement)
      = some (.improvement treasure_vaults) ∧
    idealStep .wealth [.improvement planned_economy] = some (.improvement planned_economy) :=
  ⟨((claim_C1_ideal_negative_satisfaction_rescan .wealth
      (idealCandidates wealthPlayer wealthSettlement)).2.1
        (.improvement planned_economy) (.improvement federal_museum)
        (by decide) (by decide) (by decide)).1,
   (claim_C1_ideal_negative_satisfaction_rescan .wealth
      (idealCandidates allBlessingsPlayer wealthSettlement)).1
        (.improvement treasure_vaults) (by decide) (by decide),
   (claim_C1_ideal_negative_satisfaction_rescan .wealth
      [.improvement planned_economy]).2.2.1
        (.improvement planned_economy) (by decide) (by decide) (by decide)⟩

/-! ## Claim C4: the satisfaction-rescue branch -/

/-- C4: for every settlement with satisfaction below 50 not caught by the
no-units rule, the planner selects, among the available (lowest unowned
tier) satisfaction-granting improvements affordable within the fixed turn
ceiling, the one maximising satisfaction effect plus harvest effect; when
none is affordable it falls through to the ideal-selection step instead of
picking an unaffordable one. -/
theorem claim_C4_satisfaction_rescue (p : Player) (s : Settlement)
    (hnr : ¬(p.units = [] ∧ s.garrison = [])) (hs : s.satisfaction < 50) :
    (∀ i, satRescueSelection p s = some i →
      selectBaseConstruction p s = some (.improvement i) ∧
      i ∈ availableImprovements p s ∧ 0 < i.effect.satisfaction ∧
      i.cost ≤ AFFORDABILITY_CEILING ∧
      (∀ j ∈ satRescueCandidates p s,
        j.effect.satisfaction + j.effect.harvest ≤
          i.effect.satisfaction + i.effect.harvest)) ∧
    (satRescueSelection p s = none →
      selectBaseConstruction p s = idealSelection p s) := by
  constructor
  · intro i hi
    have hmem := argmaxBy_mem hi
    have hmem2 := List.mem_filter.mp hmem
    have hpred := hmem2.2
    simp only [Bool.and_eq_true, decide_eq_true_eq] at hpred
    refine ⟨?_, hmem2.1, hpred.1, hpred.2, ?_⟩
    · unfold selectBaseConstruction
      rw [if_neg hnr, if_pos hs, hi]
    · intro j hj
      exact argmaxBy_le hi j hj
  · intro hn
    unfold selectBaseConstruction
    rw [if_neg hnr, if_pos hs, hn]

/-- Witness for C4: at the dissatisfied settlement Aqueduct (satisfaction 5
plus harvest 2, the highest combined total among affordable candidates) is
selected; once the settlement owns the whole first tier nothing affordable
remains and the planner falls through to ideal selection, which picks
Endless Mine. -/
theorem claim_C4_satisfaction_rescue_witness :
    selectBaseConstruction allBlessingsPlayer unsatisfiedSettlement
      = some (.improvement aqueduct) ∧
    selectBaseConstruction allBlessingsPlayer tooExpensiveSettlement
      = idealSelection allBlessingsPlayer tooExpensiveSettlement ∧
    idealSelection allBlessingsPlayer tooExpensiveSettlement
      = some (.improvement endless_mine) :=
  ⟨((claim_C4_satisfaction_rescue allBlessingsPlayer unsatisfiedSettlement
      (by decide) (by decide)).1 aqueduct (by decide)).1,
   (claim_C4_satisfaction_rescue allBlessingsPlayer tooExpensiveSettlement
      (by decide) (by decide)).2 (by decide),
   rfl⟩

/-! ## Claim C2: the settler override -/

theorem argmax_idealCandidates_ne_settler (r : Resource) (p : Player) (s : Settlement) :
    argmaxBy (constructionScore r) (idealCandidates p s)
      ≠ some (.unitPlan settler) := by
  intro hmax
  unfold idealCandidates at hmax
  rw [availableUnitPlans_eq, List.map_cons] at hmax
  rcases argmaxBy_append_cases _ hmax with hAB | h3
  · rcases List.mem_append.mp hAB with hA | hB
    · rcases List.mem_map.mp hA with ⟨i, _, hbad⟩
      exact Construction.noConfusion hbad
    · rcases List.mem_map.mp hB with ⟨q, _, hbad⟩
      exact Construction.noConfusion hbad
  · rcases argmaxBy_cons_elim h3 with heq | ⟨_, hlt⟩
    · exact absurd heq (by decide)
    · simp [constructionScore] at hlt

theorem argmax_filtered_idealCandidates_ne_settler (r : Resource) (p : Player)
    (s : Settlement) :
    argmaxBy (constructionScore r)
        ((idealCandidates p s).filter (fun c => 0 ≤ constructionSatisfaction c))
      ≠ some (.unitPlan settler) := by
  intro hmax
  unfold idealCandidates at hmax
  rw [availableUnitPlans_eq, List.map_cons, List.filter_append, List.filter_append,
    List.filter_cons_of_pos (by decide)] at hmax
  rcases argmaxBy_append_cases _ hmax with hAB | h3
  · rcases List.mem_append.mp hAB with hA | hB
    · rcases List.mem_map.mp (List.mem_filter.mp hA).1 with ⟨i, _, hbad⟩
      exact Construction.noConfusion hbad
    · rcases List.mem_map.mp (List.mem_filter.mp hB).1 with ⟨q, _, hbad⟩
      exact Construction.noConfusion hbad
  · rcases argmaxBy_cons_elim h3 with heq | ⟨_, hlt⟩
    · exact absurd heq (by decide)
    · simp [constructionScore] at hlt

theorem idealStep_ne_settler (r : Resource) (p : Player) (s : Settlement) :
    idealStep r (idealCandidates p s) ≠ some (.unitPlan settler) := by
  intro hsel
  unfold idealStep at hsel
  cases hmax : argmaxBy (constructionScore r) (idealCandidates p s) with
  | none => rw [hmax] at hsel; exact Option.noConfusion hsel
  | some ideal =>
    rw [hmax] at hsel
    dsimp only at hsel
    by_cases hneg : constructionSatisfaction ideal < 0
    · rw [if_pos hneg] at hsel
      cases hre : argmaxBy (constructionScore r)
          ((idealCandidates p s).filter (fun c => 0 ≤ constructionSatisfaction c)) with
      | none =>
        rw [hre] at hsel
        dsimp only at hsel
        obtain rfl := Option.some.inj hsel
        exact absurd hneg (by decide)
      | some better =>
        rw [hre] at hsel
        dsimp only at hsel
        obtain rfl := Option.some.inj hsel
        exact argmax_filtered_idealCandidates_ne_settler r p s hre
    · rw [if_neg hneg] at hsel
      obtain rfl := Option.some.inj hsel
      exact argmax_idealCandidates_ne_settler r p s hmax

theorem selectBase_ne_settler (p : Player) (s : Settlement) :
    selectBaseConstruction p s ≠ some (.unitPlan settler) := by
  intro hsel
  unfold selectBaseConstruction at hsel
  split_ifs at hsel with h1 h2 h3
  · rw [availableUnitPlans_eq] at hsel
    simp only [List.head?, Option.map_some] at hsel
    exact absurd (Option.some.inj hsel) (by decide)
  · cases hsr : satRescueSelection p s with
    | none =>
      rw [hsr] at hsel
      dsimp only at hsel
      exact idealStep_ne_settler _ p s hsel
    | some i =>
      rw [hsr] at hsel
      dsimp only at hsel
      exact Construction.noConfusion (Option.some.inj hsel)
  · cases hh : argmaxBy (fun i => i.effect.harvest) (affordableImprovements p s) with
    | none =>
      rw [hh] at hsel
      dsimp only at hsel
      exact idealStep_ne_settler _ p s hsel
    | some i =>
      rw [hh] at hsel
      dsimp only at hsel
      exact Construction.noConfusion (Option.some.inj hsel)
  · exact idealStep_ne_settler _ p s hsel

theorem bestHealerPlan_ne_settler (p : Player) :
    bestHealerPlan p ≠ some (.unitPlan settler) := by
  intro hsel
  unfold bestHealerPlan at hsel
  obtain ⟨u, hu, hmap⟩ := Option.map_eq_some'.mp hsel
  obtain rfl : u = settler := Construction.unitPlan.inj hmap
  have := (List.mem_filter.mp (argmaxBy_mem hu)).2
  exact absurd this (by decide)

theorem bestPowerPlan_ne_settler (p : Player) :
    bestPowerPlan p ≠ some (.unitPlan settler) := by
  intro hsel
  unfold bestPowerPlan at hsel
  obtain ⟨u, hu, hmap⟩ := Option.map_eq_some'.mp hsel
  obtain rfl : u = settler := Construction.unitPlan.inj hmap
  rw [availableUnitPlans_eq, List.filter_cons_of_pos (by decide)] at hu
  rcases argmaxBy_cons_elim hu with heq | ⟨_, hlt⟩
  · exact absurd heq (by decide)
  · exact absurd hlt (by decide)

theorem bestHealthPlan_ne_settler (p : Player) :
    bestHealthPlan p ≠ some (.unitPlan settler) := by
  intro hsel
  unfold bestHealthPlan at hsel
  obtain ⟨u, hu, hmap⟩ := Option.map_eq_some'.mp hsel
  obtain rfl : u = settler := Construction.unitPlan.inj hmap
  rw [availableUnitPlans_eq, List.filter_cons_of_pos (by decide)] at hu
  rcases argmaxBy_cons_elim hu with heq | ⟨_, hlt⟩
  · exact absurd heq (by decide)
  · exact absurd hlt (by decide)

/-- C2: for every unsupervised player and settlement, the planner selects
the settler blueprint exactly when the faction is not the settler-disabled
one, the settlement has not already produced a settler, and either the
satisfaction is exactly at its minimum value or the level has reached the
expansion-playstyle threshold (Expansionist 3, Neutral 5, Hermit 10); when
eligible this overrides every other construction rule including the
no-units rule. -/
theorem claim_C2_settler_override (p : Player) (s : Settlement) :
    selectAIConstruction p s = some (.unitPlan settler) ↔ settlerEligible p s := by
  constructor
  · intro hsel
    by_contra hne
    unfold selectAIConstruction at hsel
    rw [if_neg hne] at hsel
    cases hA : p.ai_playstyle.attacking <;> rw [hA] at hsel <;> dsimp only at hsel
    · split_ifs at hsel with c1 c2
      · exact bestHealerPlan_ne_settler p hsel
      · exact bestPowerPlan_ne_settler p hsel
      · exact selectBase_ne_settler p s hsel
    · split_ifs at hsel with c1 c2
      · exact bestHealerPlan_ne_settler p hsel
      · exact bestHealthPlan_ne_settler p hsel
      · cases hfs : firstStrengthImprovement p s with
        | none =>
          rw [hfs] at hsel
          dsimp only at hsel
          exact selectBase_ne_settler p s hsel
        | some i =>
          rw [hfs] at hsel
          dsimp only at hsel
          exact Construction.noConfusion (Option.some.inj hsel)
    · exact selectBase_ne_settler p s hsel
  · intro h
    unfold selectAIConstruction
    rw [if_pos h]

/-! ## Claim C5: relic search and the movement fallback -/

theorem isRelicAt_clearRelic_self {g : Grid} {c : Nat × Nat}
    (h : isRelicAt g c = true) : isRelicAt (clearRelic g c) c = false := by
  unfold isRelicAt getQuad at h
  cases hr : List.get? g c.1 with
  | none => rw [hr] at h; dsimp only at h; simp at h
  | some row =>
    rw [hr] at h
    dsimp only at h
    cases hq : row.get? c.2 with
    | none => rw [hq] at h; dsimp only at h; simp at h
    | some q =>
      rw [hq] at h
      dsimp only at h
      have hr2 : g[c.1]? = some row := by rw [← List.get?_eq_getElem?]; exact hr
      have hq2 : row[c.2]? = some q := by rw [← List.get?_eq_getElem?]; exact hq
      simp [isRelicAt, getQuad, clearRelic, List.get?_eq_getElem?, hr2, hq2,
        List.getElem?_set_self, List.getElem?_set_self, Function.const,
        List.getElem?_set_self']

theorem isRelicAt_of_findNearestRelic {g : Grid} {loc : Nat × Nat} {st : Nat}
    {rc : Nat × Nat} (h : findNearestRelic g loc st = some rc) :
    isRelicAt g rc = true ∧ cheb loc rc ≤ (st : Int) := by
  have hmem := argminBy_mem h
  unfold relicsInRange at hmem
  have h2 := (List.mem_filter.mp hmem).2
  simp only [Bool.and_eq_true, decide_eq_true_eq] at h2
  exact h2

theorem bestApproach_spec {g : Grid} {occ : List (Nat × Nat)} {loc relic t : Nat × Nat}
    (h : bestApproach g occ loc relic = some t) :
    t ∈ neighborTiles relic ∧ (getQuad g t).isSome = true ∧
      cheb loc t ≤ cheb loc relic ∧ occ.contains t = false := by
  have hmem := argminBy_mem h
  have h2 := List.mem_filter.mp hmem
  have hv := h2.2
  unfold validApproach at hv
  simp only [Bool.and_eq_true, decide_eq_true_eq, Bool.not_eq_true'] at hv
  exact ⟨h2.1, hv.1.1, hv.1.2, hv.2⟩

/-- C5: for every unit with positive remaining stamina: when a relic is in
range and a valid adjacent approach tile exists, the unit moves to the
chosen adjacent unoccupied tile, the relic flag is cleared and the entire
movement budget is consumed; when every approach tile is obstructed, or no
relic is in range, the unit performs the bounded random move instead, the
relic flag (if any) remains set and the entire movement budget is still
consumed. -/
theorem claim_C5_relic_search_or_move (u : GameUnit) (g : Grid) (p : Player)
    (ou : List GameUnit) (setts : List Settlement) (rd : Nat × Nat)
    (hst : 0 < u.remaining_stamina) :
    (∀ rc t, findNearestRelic g u.location u.remaining_stamina = some rc →
      bestApproach g (occupiedCoords p ou setts) u.location rc = some t →
      (search_for_relics_or_move u g p ou setts rd).unit.location = t ∧
      (search_for_relics_or_move u g p ou setts rd).unit.remaining_stamina = 0 ∧
      isRelicAt g rc = true ∧
      isRelicAt (search_for_relics_or_move u g p ou setts rd).quads rc = false ∧
      t ∈ neighborTiles rc ∧
      (occupiedCoords p ou setts).contains t = false) ∧
    (∀ rc, findNearestRelic g u.location u.remaining_stamina = some rc →
      bestApproach g (occupiedCoords p ou setts) u.location rc = none →
      (search_for_relics_or_move u g p ou setts rd).unit.remaining_stamina = 0 ∧
      (search_for_relics_or_move u g p ou setts rd).quads = g ∧
      isRelicAt (search_for_relics_or_move u g p ou setts rd).quads rc = isRelicAt g rc) ∧
    (findNearestRelic g u.location u.remaining_stamina = none →
      (search_for_relics_or_move u g p ou setts rd).unit.remaining_stamina = 0 ∧
      (search_for_relics_or_move u g p ou setts rd).quads = g) := by
  have hnz : ¬u.remaining_stamina = 0 := by omega
  refine ⟨?_, ?_, ?_⟩
  · intro rc t hf hb
    have hout : search_for_relics_or_move u g p ou setts rd =
        ⟨{ u with location := t, remaining_stamina := 0 }, clearRelic g rc⟩ := by
      unfold search_for_relics_or_move
      rw [if_neg hnz]
      dsimp only
      rw [hf]
      dsimp only
      rw [hb]
    rw [hout]
    obtain ⟨hrel, _⟩ := isRelicAt_of_findNearestRelic hf
    obtain ⟨hmem, _, _, hocc⟩ := bestApproach_spec hb
    exact ⟨rfl, rfl, hrel, isRelicAt_clearRelic_self hrel, hmem, hocc⟩
  · intro rc hf hb
    have hout : search_for_relics_or_move u g p ou setts rd =
        randomMove u g (occupiedCoords p ou setts) rd := by
      unfold search_for_relics_or_move
      rw [if_neg hnz]
      dsimp only
      rw [hf]
      dsimp only
      rw [hb]
    rw [hout]
    exact ⟨rfl, rfl, rfl⟩
  · intro hf
    have hout : search_for_relics_or_move u g p ou setts rd =
        randomMove u g (occupiedCoords p ou setts) rd := by
      unfold search_for_relics_or_move
      rw [if_neg hnz]
      dsimp only
      rw [hf]
    rw [hout]
    exact ⟨rfl, rfl⟩

/-- Witness for C5 at the concrete grids: the unit two tiles left of the
relic moves to the tile immediately left of it and the flag clears; with all
three approach tiles occupied by a friendly unit, a foe unit and a
settlement the flag stays set; with no relic at all the budget is still
consumed and the grid untouched. -/
theorem claim_C5_relic_search_or_move_witness :
    ((search_for_relics_or_move seekerUnit relicGrid seekerPlayer [] [] (1, 2)).unit.location
        = (2, 1) ∧
      (search_for_relics_or_move seekerUnit relicGrid seekerPlayer [] []
        (1, 2)).unit.remaining_stamina = 0 ∧
      isRelicAt (search_for_relics_or_move seekerUnit relicGrid seekerPlayer [] []
        (1, 2)).quads (3, 1) = false) ∧
    ((search_for_relics_or_move seekerUnit relicGrid obstructedPlayer [blockerFoe]
        [blockerSettlement] (1, 2)).unit.remaining_stamina = 0 ∧
      isRelicAt (search_for_relics_or_move seekerUnit relicGrid obstructedPlayer [blockerFoe]
        [blockerSettlement] (1, 2)).quads (3, 1) = isRelicAt relicGrid (3, 1)) ∧
    ((search_for_relics_or_move seekerUnit emptyGrid seekerPlayer [] []
        (1, 2)).unit.remaining_stamina = 0 ∧
      (search_for_relics_or_move seekerUnit emptyGrid seekerPlayer [] [] (1, 2)).quads
        = emptyGrid) := by
  have h1 := (claim_C5_relic_search_or_move seekerUnit relicGrid seekerPlayer [] [] (1, 2)
    (by decide)).1 (3, 1) (2, 1) (by decide) (by decide)
  have h2 := (claim_C5_relic_search_or_move seekerUnit relicGrid obstructedPlayer [blockerFoe]
    [blockerSettlement] (1, 2) (by decide)).2.1 (3, 1) (by decide) (by decide)
  have h3 := (claim_C5_relic_search_or_move seekerUnit emptyGrid seekerPlayer [] [] (1, 2)
    (by decide)).2.2 (by decide)
  exact ⟨⟨h1.1, h1.2.1, h1.2.2.2.1⟩, ⟨h2.1, h2.2.2⟩, h3⟩

/-- Witness for C2: an Expansionist settlement at level 3 selects the
settler; at level 2 (not eligible) it does not; a Concentrated-faction
settlement never does even at level 10. -/
theorem claim_C2_settler_override_witness :
    selectAIConstruction { allBlessingsPlayer with
        ai_playstyle := ⟨.NEUTRAL, .EXPANSIONIST⟩ } (levelSettlement 3)
      = some (.unitPlan settler) ∧
    selectAIConstruction { allBlessingsPlayer with
        ai_playstyle := ⟨.NEUTRAL, .EXPANSIONIST⟩ } (levelSettlement 2)
      ≠ some (.unitPlan settler) ∧
    selectAIConstruction { allBlessingsPlayer with
        faction := .Concentrated } (levelSettlement 10)
      ≠ some (.unitPlan settler) :=
  ⟨(claim_C2_settler_override _ _).mpr (by decide),
   fun hx => (by decide : ¬settlerEligible { allBlessingsPlayer with
      ai_playstyle := ⟨.NEUTRAL, .EXPANSIONIST⟩ } (levelSettlement 2))
      ((claim_C2_settler_override _ _).mp hx),
   fun hx => (by decide : ¬settlerEligible { allBlessingsPlayer with
      faction := .Concentrated } (levelSettlement 10))
      ((claim_C2_settler_override _ _).mp hx)⟩

end Microcosm
